import Mathlib

/-!
Verification of the QUANTICS local-runner / AiiDA-integration layer.

This file is a shallow embedding, in Lean 4, of the parts of the Python
sources that the specification's testable properties talk about:

* `src/runners/local_runner.py` — `QuanticsCalculation` (`to_dict` /
  `from_dict`), `LocalQuanticsRunner` (`create_calculation`,
  `prepare_calculation`, `run_calculation`, `_check_output_files`,
  `_get_opname_from_inp`, `_get_output_name_from_inp`, `run_analysis`);
* `src/utils/config.py` — `save_config` / `load_config` with
  `_serialize_config` / `_deserialize_config`;
* `src/runners/aiida_integration.py` — `_parse_quantics_output` and
  `QuanticsWorkChain._get_analysis_tools`;
* `src/gui/main_window.py` — `workflow_analysis_map`.

Modelling conventions:

* Python strings are Lean `String`s; all character-level manipulation
  (strip, split, contains, ...) is re-implemented over `List Char` by
  structural recursion so that every definition reduces in the kernel.
* `pathlib.Path` values are modelled by `PyPath`: an absolute-flag plus
  the list of normalized path components, exactly the data `PurePosixPath`
  keeps (the POSIX double-slash root special case never arises here and is
  not modelled).  `str(path)` / `Path(string)` are `pathStr` / `pathParse`.
* `datetime` values are abstracted as microsecond counts (`Nat`);
  `isoformat` / `fromisoformat` are modelled by the canonical decimal
  rendering and its exact parser, preserving the standard-library
  guarantee that `fromisoformat (isoformat t) = t` and that rendering is
  injective and never empty.
* Filesystem and subprocess effects are modelled by explicit environment
  records (what the world answers) plus action logs (what the code asks
  the world to do).  A Python exception escaping a function is an `Option`
  `none`; an exception caught inside the function is handled in place.
* Python floats are modelled as `Rat`; `float(s)` is a parser for
  (signed, optionally exponent-carrying) decimal literals.  Binary
  rounding is irrelevant to the properties considered here.
-/

/-! ### Python-style character and string helpers -/

/-- Whitespace recognized by `str.strip()` / `str.split()` (ASCII cases). -/
def isWsChar (c : Char) : Bool :=
  c = ' ' || c = '\t' || c = '\n' || c = '\r'

/-- Strip leading and trailing whitespace from a character list. -/
def trimChars (cs : List Char) : List Char :=
  ((cs.dropWhile isWsChar).reverse.dropWhile isWsChar).reverse

/-- Python `str.strip()`. -/
def pyStrip (s : String) : String :=
  ⟨trimChars s.data⟩

/-- Split a character list at every character satisfying `p`, keeping empty
segments — the semantics of Python `str.split(sep)` for a one-character
separator. -/
def splitOnP (p : Char → Bool) : List Char → List (List Char)
  | [] => [[]]
  | c :: cs =>
    if p c then [] :: splitOnP p cs
    else
      match splitOnP p cs with
      | [] => [[c]]
      | q :: qs => (c :: q) :: qs

theorem splitOnP_ne_nil (p : Char → Bool) (cs : List Char) :
    splitOnP p cs ≠ [] := by
  induction cs with
  | nil => simp [splitOnP]
  | cons c cs ih =>
    simp only [splitOnP]
    split
    · simp
    · cases h : splitOnP p cs with
      | nil => simp
      | cons q qs => simp

/-- Join character lists with a separator character (inverse of `splitOnP`
on separator-free segments). -/
def joinChars (sep : Char) : List (List Char) → List Char
  | [] => []
  | [p] => p
  | p :: ps => p ++ sep :: joinChars sep ps

/-- Python `s.split(c)` for a single-character separator (keeps empties). -/
def pySplitChar (c : Char) (s : String) : List String :=
  (splitOnP (fun a => a = c) s.data).map (fun l => (⟨l⟩ : String))

/-- Python `s.split()` — split on whitespace runs, dropping empty pieces. -/
def pySplitWs (s : String) : List String :=
  ((splitOnP isWsChar s.data).filter (fun l => l ≠ [])).map (fun l => (⟨l⟩ : String))

/-- The successive lines of a text, as produced by iterating over a Python
file object and stripping each line (splitting on newline keeps the same
stripped lines, plus possibly one final empty line that no scanner below
ever matches). -/
def pyLines (s : String) : List String :=
  pySplitChar '\n' s

/-- Python `s.startswith(pre)`. -/
def pyStartsWith (pre s : String) : Bool :=
  pre.data.isPrefixOf s.data

/-- Does `pat` occur as a contiguous sublist of the second argument? -/
def infixAt (pat : List Char) : List Char → Bool
  | [] => pat.isPrefixOf []
  | c :: cs => pat.isPrefixOf (c :: cs) || infixAt pat cs

/-- Python `pat in s` (substring containment). -/
def containsSub (pat s : String) : Bool :=
  infixAt pat.data s.data

/-- Python `c in s` for a single character. -/
def containsChar (c : Char) (s : String) : Bool :=
  s.data.contains c

/-! ### Decimal rendering and parsing of natural numbers

Used to model the timestamp serialization: `datetime` values are
abstracted as microsecond counts, and `isoformat`/`fromisoformat` as the
canonical decimal rendering and its exact parser (the standard library
guarantees the two are mutually inverse). -/

/-- The character of a decimal digit. -/
def digitToChar (d : Nat) : Char :=
  match d with
  | 0 => '0' | 1 => '1' | 2 => '2' | 3 => '3' | 4 => '4'
  | 5 => '5' | 6 => '6' | 7 => '7' | 8 => '8' | _ => '9'

/-- Is the character a decimal digit? -/
def isDigitC (c : Char) : Bool :=
  '0' ≤ c && c ≤ '9'

/-- Numeric value of a digit character. -/
def charVal (c : Char) : Nat :=
  c.toNat - 48

/-- Canonical decimal rendering of a natural number. -/
def natRender (n : Nat) : String :=
  if n = 0 then "0" else ⟨((Nat.digits 10 n).map digitToChar).reverse⟩

/-- Exact parser for decimal strings of digits (no sign, no blanks). -/
def natParse? (s : String) : Option Nat :=
  if s.data ≠ [] && s.data.all isDigitC then
    some (Nat.ofDigits 10 ((s.data.map charVal).reverse))
  else none

theorem charVal_digitToChar {d : Nat} (h : d < 10) :
    charVal (digitToChar d) = d ∧ isDigitC (digitToChar d) = true := by
  interval_cases d <;> exact ⟨rfl, rfl⟩

theorem natParse_natRender (n : Nat) : natParse? (natRender n) = some n := by
  by_cases h0 : n = 0
  · subst h0; decide
  · have hne : Nat.digits 10 n ≠ [] := Nat.digits_ne_nil_iff_ne_zero.mpr h0
    have hlt : ∀ d ∈ Nat.digits 10 n, d < 10 := fun d hd =>
      Nat.digits_lt_base (by norm_num) hd
    unfold natRender natParse?
    rw [if_neg h0]
    have hdata : (String.mk (((Nat.digits 10 n).map digitToChar).reverse)).data
        = ((Nat.digits 10 n).map digitToChar).reverse := rfl
    rw [hdata]
    have hnil : ((Nat.digits 10 n).map digitToChar).reverse ≠ [] := by
      simp [hne]
    have hall : (((Nat.digits 10 n).map digitToChar).reverse).all isDigitC = true := by
      rw [List.all_eq_true]
      intro c hc
      rw [List.mem_reverse, List.mem_map] at hc
      obtain ⟨d, hd, rfl⟩ := hc
      exact (charVal_digitToChar (hlt d hd)).2
    rw [if_pos (by simp [hnil, hall])]
    congr 1
    have hcancel : ∀ l : List Nat, (∀ d ∈ l, d < 10) →
        (l.map digitToChar).map charVal = l := by
      intro l hl
      induction l with
      | nil => rfl
      | cons a l ih =>
        have ha : charVal (digitToChar a) = a :=
          (charVal_digitToChar (hl a (by simp))).1
        simp [ha, ih (fun d hd => hl d (by simp [hd]))]
    have hmap : (((Nat.digits 10 n).map digitToChar).reverse.map charVal).reverse
        = Nat.digits 10 n := by
      rw [← List.map_reverse, List.reverse_reverse, hcancel _ hlt]
    rw [hmap, Nat.ofDigits_digits]

theorem natRender_ne_empty (n : Nat) : natRender n ≠ "" := by
  unfold natRender
  split
  · decide
  · intro h
    have hne : Nat.digits 10 n ≠ [] := Nat.digits_ne_nil_iff_ne_zero.mpr (by assumption)
    have : (String.mk (((Nat.digits 10 n).map digitToChar).reverse)).data = ("" : String).data := by
      rw [h]
    simp at this
    exact hne this

/-! ### Paths

`pathlib.Path` values are represented by their normalized data: an
absolute-flag and the list of components, as kept by `PurePosixPath`.
`pathStr` is `str(path)`; `pathParse` is `Path(string)` (dropping empty
and `.` components, as pathlib normalization does). -/

structure PyPath where
  absolute : Bool
  parts : List String
deriving DecidableEq

/-- A legal normalized path component: nonempty, not `.`, slash-free —
exactly what `PurePosixPath.parts` entries look like. -/
def partOk (s : String) : Bool :=
  decide (s.data ≠ []) && decide (s.data ≠ ['.']) && s.data.all (fun c => c != '/')

/-- All components of the path are legal normalized components. -/
def PyPath.wfB (p : PyPath) : Bool :=
  p.parts.all partOk

/-- Python `str(path)`. -/
def pathStr (p : PyPath) : String :=
  if p.absolute then ⟨'/' :: joinChars '/' (p.parts.map String.data)⟩
  else if p.parts = [] then "."
  else ⟨joinChars '/' (p.parts.map String.data)⟩

/-- Python `Path(string)` (POSIX flavour; the `//` root special case never
arises in this development). -/
def pathParse (s : String) : PyPath :=
  { absolute := match s.data with | c :: _ => c = '/' | [] => false
    parts := ((splitOnP (fun c => c = '/') s.data).filter
        (fun l => decide (l ≠ []) && decide (l ≠ ['.']))).map (fun l => (⟨l⟩ : String)) }

/-- `Path` / path-string append: `path / segment` for a plain segment. -/
def pathChild (p : PyPath) (seg : String) : PyPath :=
  ⟨p.absolute, p.parts ++ [seg]⟩

theorem splitOnP_no_sep {p : Char → Bool} {q : List Char}
    (h : ∀ c ∈ q, p c = false) : splitOnP p q = [q] := by
  induction q with
  | nil => rfl
  | cons c cs ih =>
    have hc : p c = false := h c (by simp)
    have hrest : splitOnP p cs = [cs] := ih (fun d hd => h d (by simp [hd]))
    simp [splitOnP, hc, hrest]

theorem splitOnP_append_no_sep {p : Char → Bool} {q ds : List Char}
    (h : ∀ c ∈ q, p c = false) {r : List Char} {rs : List (List Char)}
    (hds : splitOnP p ds = r :: rs) :
    splitOnP p (q ++ ds) = (q ++ r) :: rs := by
  induction q with
  | nil => simpa using hds
  | cons c cs ih =>
    have hc : p c = false := h c (by simp)
    have hrest := ih (fun d hd => h d (by simp [hd]))
    simp only [List.cons_append, splitOnP, hc, List.append_eq, hrest]
    simp

theorem splitOnP_joinChars {ps : List (List Char)}
    (h : ∀ q ∈ ps, ∀ c ∈ q, c ≠ '/') (hne : ps ≠ []) :
    splitOnP (fun c => c = '/') (joinChars '/' ps) = ps := by
  induction ps with
  | nil => exact absurd rfl hne
  | cons q ps ih =>
    have hq : ∀ c ∈ q, (fun c => decide (c = '/')) c = false := by
      intro c hc
      simpa using h q (by simp) c hc
    cases ps with
    | nil => simpa [joinChars] using splitOnP_no_sep hq
    | cons r rs =>
      have hrec := ih (fun a ha c hc => h a (by simp [ha]) c hc) (by simp)
      have htail : splitOnP (fun c => c = '/') ('/' :: joinChars '/' (r :: rs))
          = [] :: r :: rs := by
        have hstep : splitOnP (fun c => c = '/') ('/' :: joinChars '/' (r :: rs))
            = [] :: splitOnP (fun c => c = '/') (joinChars '/' (r :: rs)) := rfl
        rw [hstep, hrec]
      have hj : joinChars '/' (q :: r :: rs) = q ++ '/' :: joinChars '/' (r :: rs) := rfl
      rw [hj, splitOnP_append_no_sep (p := fun c => c = '/') hq htail]
      simp

theorem partOk_spec {s : String} (h : partOk s = true) :
    s.data ≠ [] ∧ s.data ≠ ['.'] ∧ ∀ c ∈ s.data, c ≠ '/' := by
  simp only [partOk, Bool.and_eq_true, decide_eq_true_eq, List.all_eq_true,
    bne_iff_ne] at h
  exact ⟨h.1.1, h.1.2, h.2⟩

theorem string_mk_data (s : String) : (⟨s.data⟩ : String) = s := by
  cases s
  rfl

theorem list_map_self {α : Type} {f : α → α} :
    ∀ {l : List α}, (∀ a ∈ l, f a = a) → l.map f = l
  | [], _ => rfl
  | a :: l, h => by
    rw [List.map_cons, h a (by simp), list_map_self (fun b hb => h b (by simp [hb]))]

theorem pathStr_abs (parts : List String) :
    pathStr ⟨true, parts⟩ = ⟨'/' :: joinChars '/' (parts.map String.data)⟩ := rfl

theorem pathStr_rel_nil : pathStr ⟨false, []⟩ = "." := rfl

theorem pathStr_rel_cons (q : String) (qs : List String) :
    pathStr ⟨false, q :: qs⟩ = ⟨joinChars '/' ((q :: qs).map String.data)⟩ := rfl

theorem pathParse_mk (l : List Char) :
    pathParse ⟨l⟩ = ⟨match l with | c :: _ => c = '/' | [] => false,
      ((splitOnP (fun c => c = '/') l).filter
        (fun t => decide (t ≠ []) && decide (t ≠ ['.']))).map (fun t => (⟨t⟩ : String))⟩ := rfl

theorem pathParse_pathStr {p : PyPath} (h : p.wfB = true) :
    pathParse (pathStr p) = p := by
  obtain ⟨abs, parts⟩ := p
  have hparts : ∀ q ∈ parts, partOk q = true := by
    simpa [PyPath.wfB, List.all_eq_true] using h
  have hnoslash : ∀ q ∈ parts.map String.data, ∀ c ∈ q, c ≠ '/' := by
    intro q hq c hc
    rw [List.mem_map] at hq
    obtain ⟨t, ht, rfl⟩ := hq
    exact (partOk_spec (hparts t ht)).2.2 c hc
  have hfilter : (parts.map String.data).filter
      (fun t => decide (t ≠ []) && decide (t ≠ ['.'])) = parts.map String.data := by
    apply List.filter_eq_self.mpr
    intro l hl
    rw [List.mem_map] at hl
    obtain ⟨t, ht, rfl⟩ := hl
    have := partOk_spec (hparts t ht)
    simp [this.1, this.2.1]
  have hback : (parts.map String.data).map (fun t => (⟨t⟩ : String)) = parts := by
    rw [List.map_map]
    exact list_map_self (fun q _ => string_mk_data q)
  cases abs with
  | true =>
    rw [pathStr_abs, pathParse_mk]
    cases hp : parts with
    | nil => subst hp; decide
    | cons q qs =>
      subst hp
      have hsplit : splitOnP (fun c => c = '/')
          ('/' :: joinChars '/' ((q :: qs).map String.data))
          = [] :: splitOnP (fun c => c = '/') (joinChars '/' ((q :: qs).map String.data)) := rfl
      rw [hsplit, splitOnP_joinChars hnoslash (by simp)]
      have hdrop : (([] : List Char) :: (q :: qs).map String.data).filter
          (fun t => decide (t ≠ []) && decide (t ≠ ['.']))
          = ((q :: qs).map String.data).filter
              (fun t => decide (t ≠ []) && decide (t ≠ ['.'])) := rfl
      rw [hdrop, hfilter, hback]
      rfl
  | false =>
    cases hp : parts with
    | nil => subst hp; decide
    | cons q qs =>
      subst hp
      rw [pathStr_rel_cons, pathParse_mk]
      obtain ⟨hqne, _, hqns⟩ := partOk_spec (hparts q (by simp))
      obtain ⟨c, cs, hcq⟩ : ∃ c cs, q.data = c :: cs := by
        cases hq : q.data with
        | nil => exact absurd hq hqne
        | cons c cs => exact ⟨c, cs, rfl⟩
      have hc : c ≠ '/' := hqns c (by simp [hcq])
      have hjoin : ∃ t, joinChars '/' ((q :: qs).map String.data) = c :: t := by
        cases qs with
        | nil => exact ⟨cs, by simp [joinChars, hcq]⟩
        | cons r rs => exact ⟨cs ++ '/' :: joinChars '/' ((r :: rs).map String.data),
            by simp [joinChars, hcq]⟩
      obtain ⟨t, ht⟩ := hjoin
      have habs : (match joinChars '/' ((q :: qs).map String.data) with
          | c :: _ => decide (c = '/') | [] => false) = false := by
        rw [ht]
        simp [hc]
      rw [splitOnP_joinChars hnoslash (by simp), hfilter, hback, habs]

theorem pathStr_ne_empty {p : PyPath} (h : p.wfB = true) : pathStr p ≠ "" := by
  obtain ⟨abs, parts⟩ := p
  have hparts : ∀ q ∈ parts, partOk q = true := by
    simpa [PyPath.wfB, List.all_eq_true] using h
  intro hcontra
  have hdata : (pathStr ⟨abs, parts⟩).data = [] := by rw [hcontra]
  cases abs with
  | true => rw [pathStr_abs] at hdata; simp at hdata
  | false =>
    cases hp : parts with
    | nil => subst hp; rw [pathStr_rel_nil] at hdata; simp at hdata
    | cons q qs =>
      subst hp
      rw [pathStr_rel_cons] at hdata
      obtain ⟨hqne, _, _⟩ := partOk_spec (hparts q (by simp))
      obtain ⟨c, cs, hcq⟩ : ∃ c cs, q.data = c :: cs := by
        cases hq : q.data with
        | nil => exact absurd hq hqne
        | cons c cs => exact ⟨c, cs, rfl⟩
      cases qs with
      | nil => simp only [List.map, joinChars, hcq] at hdata; exact absurd hdata (by simp)
      | cons r rs => simp only [List.map, joinChars, hcq] at hdata; exact absurd hdata (by simp)

/-! ### Python-dict association lists

Registries, `calc.results` and analysis-result mappings are Python dicts;
they are modelled as insertion-ordered association lists with
overwrite-on-existing-key semantics. -/

def dictLookup {α : Type} (d : List (String × α)) (k : String) : Option α :=
  (d.find? (fun e => e.fst == k)).map Prod.snd

def dictInsert {α : Type} (d : List (String × α)) (k : String) (v : α) :
    List (String × α) :=
  if d.any (fun e => e.fst == k) then
    d.map (fun e => if e.fst == k then (k, v) else e)
  else d ++ [(k, v)]

theorem find_replaced_self {α : Type} {k : String} {v : α} :
    ∀ d : List (String × α), d.any (fun e => e.fst == k) = true →
      (d.map (fun e => if e.fst == k then (k, v) else e)).find?
        (fun e => e.fst == k) = some (k, v) := by
  intro d hd
  induction d with
  | nil => simp at hd
  | cons e es ih =>
    rw [List.map_cons]
    cases he : (e.fst == k) with
    | true =>
      have h1 : (if (true = true) then (k, v) else e) = (k, v) := if_pos rfl
      rw [h1, List.find?_cons_of_pos _ (by simp)]
    | false =>
      have hany : es.any (fun e => e.fst == k) = true := by
        rw [List.any_cons, he] at hd
        simpa using hd
      have h1 : (if (false = true) then (k, v) else e) = e := if_neg (by simp)
      rw [h1, List.find?_cons_of_neg _ (by simp [he])]
      exact ih hany

theorem find_appended_self {α : Type} {k : String} {v : α} :
    ∀ d : List (String × α), d.any (fun e => e.fst == k) = false →
      (d ++ [(k, v)]).find? (fun e => e.fst == k) = some (k, v) := by
  intro d hd
  induction d with
  | nil => rw [List.nil_append, List.find?_cons_of_pos _ (by simp)]
  | cons e es ih =>
    rw [List.any_cons] at hd
    have he : (e.fst == k) = false := by
      cases h : (e.fst == k)
      · rfl
      · rw [h] at hd
        simp at hd
    have hany : es.any (fun e => e.fst == k) = false := by
      cases h : es.any (fun e => e.fst == k)
      · rfl
      · rw [h] at hd
        simp at hd
    rw [List.cons_append, List.find?_cons_of_neg _ (by simp [he])]
    exact ih hany

theorem dictLookup_insert_self {α : Type} (d : List (String × α)) (k : String) (v : α) :
    dictLookup (dictInsert d k v) k = some v := by
  unfold dictLookup dictInsert
  by_cases h : d.any (fun e => e.fst == k) = true
  · rw [if_pos h, find_replaced_self d h]
    rfl
  · rw [if_neg h, find_appended_self d (by
      cases hb : d.any (fun e => e.fst == k) with
      | false => rfl
      | true => exact absurd hb h)]
    rfl

theorem find_replaced_ne {α : Type} {k k' : String} {v : α} (hkk : k' ≠ k) :
    ∀ d : List (String × α),
      (d.map (fun e => if e.fst == k then (k, v) else e)).find?
        (fun e => e.fst == k') = d.find? (fun e => e.fst == k') := by
  intro d
  induction d with
  | nil => rfl
  | cons e es ih =>
    rw [List.map_cons]
    cases he : (e.fst == k) with
    | true =>
      have hek : e.fst = k := by simpa using he
      have h1 : (if (true = true) then (k, v) else e) = (k, v) := if_pos rfl
      have h2 : ((k, v).fst == k') = false := by simp [Ne.symm hkk]
      have h3 : (e.fst == k') = false := by simp [hek, Ne.symm hkk]
      rw [h1, List.find?_cons_of_neg _ (by simp [h2]),
        List.find?_cons_of_neg _ (by simp [h3])]
      exact ih
    | false =>
      have h1 : (if (false = true) then (k, v) else e) = e := if_neg (by simp)
      rw [h1]
      cases h : (e.fst == k') with
      | true =>
        rw [List.find?_cons_of_pos _ (by simp [h]), List.find?_cons_of_pos _ (by simp [h])]
      | false =>
        rw [List.find?_cons_of_neg _ (by simp [h]), List.find?_cons_of_neg _ (by simp [h])]
        exact ih

theorem find_appended_ne {α : Type} {k k' : String} {v : α} (hkk : k' ≠ k) :
    ∀ d : List (String × α),
      (d ++ [(k, v)]).find? (fun e => e.fst == k') = d.find? (fun e => e.fst == k') := by
  intro d
  induction d with
  | nil =>
    rw [List.nil_append, List.find?_cons_of_neg _ (by simp [Ne.symm hkk]), List.find?_nil]
  | cons e es ih =>
    rw [List.cons_append]
    cases h : (e.fst == k') with
    | true =>
      rw [List.find?_cons_of_pos _ (by simp [h]), List.find?_cons_of_pos _ (by simp [h])]
    | false =>
      rw [List.find?_cons_of_neg _ (by simp [h]), List.find?_cons_of_neg _ (by simp [h])]
      exact ih

theorem dictLookup_insert_ne {α : Type} (d : List (String × α)) {k k' : String} (v : α)
    (hkk : k' ≠ k) : dictLookup (dictInsert d k v) k' = dictLookup d k' := by
  unfold dictLookup dictInsert
  by_cases h : d.any (fun e => e.fst == k) = true
  · rw [if_pos h, find_replaced_ne hkk d]
  · rw [if_neg h, find_appended_ne hkk d]

theorem map_fst_replace {α : Type} {k : String} {v : α} :
    ∀ d : List (String × α),
      (d.map (fun e => if e.fst == k then (k, v) else e)).map Prod.fst
        = d.map Prod.fst := by
  intro d
  induction d with
  | nil => rfl
  | cons e es ih =>
    rw [List.map_cons, List.map_cons, List.map_cons]
    cases he : (e.fst == k) with
    | true =>
      have hek : e.fst = k := by simpa using he
      have h1 : (if (true = true) then (k, v) else e) = (k, v) := if_pos rfl
      rw [h1, ih]
      simp [hek]
    | false =>
      have h1 : (if (false = true) then (k, v) else e) = e := if_neg (by simp)
      rw [h1, ih]

theorem map_fst_dictInsert {α : Type} (d : List (String × α)) (k : String) (v : α) :
    (dictInsert d k v).map Prod.fst =
      if d.any (fun e => e.fst == k) then d.map Prod.fst
      else d.map Prod.fst ++ [k] := by
  unfold dictInsert
  by_cases h : d.any (fun e => e.fst == k) = true
  · rw [if_pos h, if_pos h, map_fst_replace d]
  · rw [if_neg h, if_neg h]
    simp

/-! ### Configuration values (`src/utils/config.py`)

`ConfigVal` is the space of values a configuration dict (or the open-ended
`calc.results` mapping) can hold: JSON scalars, `pathlib.Path` objects,
lists and nested dicts. -/

inductive ConfigVal where
  | str (s : String)
  | int (n : Int)
  | bool (b : Bool)
  | null
  | path (p : PyPath)
  | list (items : List ConfigVal)
  | dict (entries : List (String × ConfigVal))

/-- Python truthiness of a configuration value. -/
def truthy : ConfigVal → Bool
  | .str s => decide (s.data ≠ [])
  | .int n => decide (n ≠ 0)
  | .bool b => b
  | .null => false
  | .path _ => true
  | .list [] => false
  | .list (_ :: _) => true
  | .dict [] => false
  | .dict (_ :: _) => true

/-- The list branch of `_serialize_config`: `str(item) if isinstance(item,
Path) else item` — applied to the top level of the list only. -/
def serializeListItem : ConfigVal → ConfigVal
  | .path p => .str (pathStr p)
  | v => v

mutual

/-- Value branch of `_serialize_config`: `Path` becomes its string, dicts
recurse, lists convert their `Path` items, everything else is unchanged. -/
def serializeValue : ConfigVal → ConfigVal
  | .path p => .str (pathStr p)
  | .dict es => .dict (serializeEntries es)
  | .list items => .list (items.map serializeListItem)
  | v => v

/-- `_serialize_config` itself (iteration over the dict's entries). -/
def serializeEntries : List (String × ConfigVal) → List (String × ConfigVal)
  | [] => []
  | (k, v) :: rest => (k, serializeValue v) :: serializeEntries rest

end

/-- The keys `_deserialize_config` converts back to `Path` objects. -/
def path_keys : List String :=
  ["inp_file", "op_file", "db_folder", "working_directory",
   "quantics_executable", "base_directory"]

mutual

/-- Value branch of `_deserialize_config`: under a recognized path key a
truthy value is passed to `Path(...)` (failing — `none` — on values
`Path()` rejects, which `load_config` turns into an overall failure);
otherwise dicts recurse and everything else is unchanged.  Lists are NOT
recursed into on the way back. -/
def deserializeValue (key : String) (v : ConfigVal) : Option ConfigVal :=
  if path_keys.contains key && truthy v then
    match v with
    | .str s => some (.path (pathParse s))
    | .path p => some (.path p)
    | _ => none
  else
    match v with
    | .dict es => (deserializeEntries es).map ConfigVal.dict
    | w => some w

/-- `_deserialize_config` itself. -/
def deserializeEntries : List (String × ConfigVal) → Option (List (String × ConfigVal))
  | [] => some []
  | (k, v) :: rest =>
    match deserializeValue k v, deserializeEntries rest with
    | some w, some ws => some ((k, w) :: ws)
    | _, _ => none

end

/-- `load_config` applied to the file written by `save_config`.  The JSON
dump/load pair in between is the identity on the (JSON-compatible)
serialized entries, so the composition is deserialize-after-serialize. -/
def saveThenLoad (config : List (String × ConfigVal)) :
    Option (List (String × ConfigVal)) :=
  deserializeEntries (serializeEntries config)

/-! ### The Calculation record (`QuanticsCalculation` in local_runner.py) -/

structure QuanticsCalculation where
  name : String
  inp_file : Option PyPath := none
  op_file : Option PyPath := none
  db_folder : Option PyPath := none
  workflow_type : String := "MCTDH"
  working_directory : Option PyPath := none
  status : String := "created"
  start_time : Option Nat := none
  end_time : Option Nat := none
  results : List (String × ConfigVal) := []

/-- The dictionary produced by `QuanticsCalculation.to_dict`: every path
is a string or `None`, every timestamp an ISO string or `None`, and
`results` is passed through by reference. -/
structure CalcDict where
  name : String
  inp_file : Option String
  op_file : Option String
  db_folder : Option String
  workflow_type : String
  working_directory : Option String
  status : String
  start_time : Option String
  end_time : Option String
  results : List (String × ConfigVal)

/-- `to_dict` — `str(x) if x else None` on paths (a `Path` object is always
truthy), `t.isoformat() if t else None` on timestamps. -/
def QuanticsCalculation.to_dict (c : QuanticsCalculation) : CalcDict :=
  { name := c.name
    inp_file := c.inp_file.map pathStr
    op_file := c.op_file.map pathStr
    db_folder := c.db_folder.map pathStr
    workflow_type := c.workflow_type
    working_directory := c.working_directory.map pathStr
    status := c.status
    start_time := c.start_time.map natRender
    end_time := c.end_time.map natRender
    results := c.results }

/-- `Path(data[k]) if data[k] else None` — note that the empty string is
falsy, so it maps to `None` rather than to `Path("")`. -/
def parsePathField (o : Option String) : Option PyPath :=
  match o with
  | some s => if s.data ≠ [] then some (pathParse s) else none
  | none => none

/-- `datetime.fromisoformat(data[k]) if data[k] else None`; an unparsable
nonempty string makes `fromisoformat` raise, so the outer `none` models
the exception escaping `from_dict`. -/
def parseTimeField (o : Option String) : Option (Option Nat) :=
  match o with
  | none => some none
  | some s => if s.data = [] then some none else (natParse? s).map some

/-- `from_dict` (classmethod) — `none` models a propagating exception from
`datetime.fromisoformat`. -/
def QuanticsCalculation.from_dict (d : CalcDict) : Option QuanticsCalculation :=
  match parseTimeField d.start_time, parseTimeField d.end_time with
  | some st, some et =>
    some { name := d.name
           inp_file := parsePathField d.inp_file
           op_file := parsePathField d.op_file
           db_folder := parsePathField d.db_folder
           workflow_type := d.workflow_type
           working_directory := parsePathField d.working_directory
           status := d.status
           start_time := st
           end_time := et
           results := d.results }
  | _, _ => none

/-- Well-formedness of an optional path field. -/
def optWf (o : Option PyPath) : Bool :=
  match o with
  | none => true
  | some p => p.wfB

mutual

/-- JSON-compatibility: no live `Path` object anywhere inside the value. -/
def noPathVal : ConfigVal → Bool
  | .path _ => false
  | .list items => noPathList items
  | .dict es => noPathEntries es
  | _ => true

def noPathList : List ConfigVal → Bool
  | [] => true
  | v :: vs => noPathVal v && noPathList vs

def noPathEntries : List (String × ConfigVal) → Bool
  | [] => true
  | (_, v) :: rest => noPathVal v && noPathEntries rest

end

theorem string_data_eq_nil {s : String} (h : s.data = []) : s = "" := by
  rw [← string_mk_data s, h]

theorem parsePathField_roundtrip (o : Option PyPath) (h : optWf o = true) :
    parsePathField (o.map pathStr) = o := by
  cases o with
  | none => rfl
  | some p =>
    have hwf : p.wfB = true := h
    have hne : (pathStr p).data ≠ [] := fun hc =>
      pathStr_ne_empty hwf (string_data_eq_nil hc)
    have hstep : parsePathField ((some p).map pathStr)
        = if (pathStr p).data ≠ [] then some (pathParse (pathStr p)) else none := rfl
    rw [hstep, if_pos hne, pathParse_pathStr hwf]

theorem parseTimeField_roundtrip (o : Option Nat) :
    parseTimeField (o.map natRender) = some o := by
  cases o with
  | none => rfl
  | some n =>
    have hne : ¬((natRender n).data = []) := fun hc =>
      natRender_ne_empty n (string_data_eq_nil hc)
    have hstep : parseTimeField ((some n).map natRender)
        = if (natRender n).data = [] then some none
          else (natParse? (natRender n)).map some := rfl
    rw [hstep, if_neg hne, natParse_natRender n]
    rfl

/-- C10: for every `QuanticsCalculation` record whose path fields are each
`None` or a (well-formed) `Path`, whose timestamps are each `None` or a
datetime, and whose `results` is a JSON-compatible dict,
`from_dict (to_dict calc)` reproduces all ten fields exactly — the
registry's serialization round-trip is the identity. -/
theorem C10_record_roundtrip (c : QuanticsCalculation)
    (h1 : optWf c.inp_file = true) (h2 : optWf c.op_file = true)
    (h3 : optWf c.db_folder = true) (h4 : optWf c.working_directory = true)
    (_h5 : noPathEntries c.results = true) :
    QuanticsCalculation.from_dict (QuanticsCalculation.to_dict c) = some c := by
  unfold QuanticsCalculation.to_dict QuanticsCalculation.from_dict
  rw [parseTimeField_roundtrip, parseTimeField_roundtrip]
  simp only [parsePathField_roundtrip _ h1, parsePathField_roundtrip _ h2,
    parsePathField_roundtrip _ h3, parsePathField_roundtrip _ h4]

/-- Witness for C10 at a concrete record with every field populated. -/
theorem C10_record_roundtrip_witness :
    QuanticsCalculation.from_dict (QuanticsCalculation.to_dict
      { name := "job1"
        inp_file := some ⟨false, ["inputs", "a.inp"]⟩
        op_file := some ⟨true, ["ops", "a.op"]⟩
        db_folder := some ⟨true, ["data", "db"]⟩
        workflow_type := "DD-vMCG"
        working_directory := some ⟨true, ["runs", "job1_20240101"]⟩
        status := "completed"
        start_time := some 1700000
        end_time := some 1800000
        results := [("output_name", ConfigVal.str "ho")] })
    = some
      { name := "job1"
        inp_file := some ⟨false, ["inputs", "a.inp"]⟩
        op_file := some ⟨true, ["ops", "a.op"]⟩
        db_folder := some ⟨true, ["data", "db"]⟩
        workflow_type := "DD-vMCG"
        working_directory := some ⟨true, ["runs", "job1_20240101"]⟩
        status := "completed"
        start_time := some 1700000
        end_time := some 1800000
        results := [("output_name", ConfigVal.str "ho")] } :=
  C10_record_roundtrip _ (by decide) (by decide) (by decide) (by decide) rfl

/-- C9: a configuration holding a (well-formed) `Path` under a recognized
path key and a list of plain strings under a non-path key survives
`save_config` followed by `load_config` unchanged, with the path field
reconstructed as a `Path` object (not a string) and the string list
untouched. -/
theorem C9_config_roundtrip (k k2 : String) (p : PyPath) (ss : List String)
    (hk : path_keys.contains k = true) (hk2 : path_keys.contains k2 = false)
    (hp : p.wfB = true) :
    saveThenLoad [(k, ConfigVal.path p), (k2, ConfigVal.list (ss.map ConfigVal.str))]
      = some [(k, ConfigVal.path p), (k2, ConfigVal.list (ss.map ConfigVal.str))] := by
  have hlist : (ss.map ConfigVal.str).map serializeListItem = ss.map ConfigVal.str :=
    list_map_self (fun v hv => by
      rw [List.mem_map] at hv
      obtain ⟨a, _, rfl⟩ := hv
      rfl)
  have htruthy : truthy (ConfigVal.str (pathStr p)) = true := by
    have : (pathStr p).data ≠ [] := fun hc =>
      pathStr_ne_empty hp (string_data_eq_nil hc)
    simp [truthy, this]
  have hser : serializeEntries
      [(k, ConfigVal.path p), (k2, ConfigVal.list (ss.map ConfigVal.str))]
      = [(k, ConfigVal.str (pathStr p)),
         (k2, ConfigVal.list ((ss.map ConfigVal.str).map serializeListItem))] := rfl
  have hcond : (path_keys.contains k && truthy (ConfigVal.str (pathStr p))) = true := by
    rw [hk, htruthy]
    rfl
  have h1 : deserializeValue k (ConfigVal.str (pathStr p))
      = some (ConfigVal.path p) := by
    unfold deserializeValue
    rw [if_pos hcond]
    show some (ConfigVal.path (pathParse (pathStr p))) = _
    rw [pathParse_pathStr hp]
  have hcond2 : (path_keys.contains k2
      && truthy (ConfigVal.list (ss.map ConfigVal.str))) = false := by
    rw [hk2]
    rfl
  have h2 : deserializeValue k2 (ConfigVal.list (ss.map ConfigVal.str))
      = some (ConfigVal.list (ss.map ConfigVal.str)) := by
    unfold deserializeValue
    rw [if_neg (by rw [hcond2]; simp)]
  unfold saveThenLoad
  rw [hser, hlist]
  simp only [deserializeEntries, h1, h2]

/-- Witness for C9 at a concrete configuration. -/
theorem C9_config_roundtrip_witness :
    saveThenLoad [("inp_file", ConfigVal.path ⟨false, ["inputs", "a.inp"]⟩),
        ("analysis_tools", ConfigVal.list (["rdcheck etot", "rdgpop"].map ConfigVal.str))]
      = some [("inp_file", ConfigVal.path ⟨false, ["inputs", "a.inp"]⟩),
        ("analysis_tools", ConfigVal.list (["rdcheck etot", "rdgpop"].map ConfigVal.str))] :=
  C9_config_roundtrip "inp_file" "analysis_tools" ⟨false, ["inputs", "a.inp"]⟩
    ["rdcheck etot", "rdgpop"] (by decide) (by decide) (by decide)

/-! ### Input-file directive scanning (local_runner.py) -/

/-- The segment of `t` between the first and second `=` (Python
`t.split("=")[1]`), stripped; the callers guard on `"=" in t`, which makes
the fallback branch unreachable. -/
def valueAfterEq (t : String) : String :=
  match splitOnP (fun c => c = '=') t.data with
  | _ :: second :: _ => pyStrip ⟨second⟩
  | _ => ""

/-- Common body of `_get_opname_from_inp` and `_get_output_name_from_inp`:
scan line by line; the first line whose stripped form starts with `key`
and contains `=` yields `line.split("=")[1].strip()`. -/
def scanDirective (key : String) : List String → Option String
  | [] => none
  | l :: ls =>
    let t := pyStrip l
    if pyStartsWith key t && containsChar '=' t then some (valueAfterEq t)
    else scanDirective key ls

/-- `_get_opname_from_inp` on the lines of the readable input file (the
caller passes `none` content when the read raises, which the helper turns
into `None`). -/
def getOpnameFromInp (lines : List String) : Option String :=
  scanDirective "opname" lines

/-- `_get_output_name_from_inp` likewise. -/
def getOutputNameFromInp (lines : List String) : Option String :=
  scanDirective "name" lines

/-- Find-first reformulation of the scanner, used to state the amended
claims: the value produced by the first line whose stripped form starts
with `key` and contains `=`. -/
def firstDirective (key : String) (lines : List String) : Option String :=
  (lines.find? (fun l => pyStartsWith key (pyStrip l)
    && containsChar '=' (pyStrip l))).map (fun l => valueAfterEq (pyStrip l))

/-- Strict reading of the specification's "a line of the form
`key = <value>`": the text before the first `=` strips to exactly `key`
(not merely to something starting with `key`).  This is the claim-side
definition, written from the specification's words for comparison with the
code's scanner. -/
def strictDirective (key : String) (lines : List String) : Option String :=
  (lines.find? (fun l =>
    match splitOnP (fun c => c = '=') (pyStrip l).data with
    | kpart :: _ :: _ => pyStrip ⟨kpart⟩ == key
    | _ => false)).map (fun l => valueAfterEq (pyStrip l))

theorem scanDirective_eq_firstDirective (key : String) :
    ∀ lines, scanDirective key lines = firstDirective key lines := by
  intro lines
  induction lines with
  | nil => rfl
  | cons l ls ih =>
    unfold firstDirective
    by_cases h : (pyStartsWith key (pyStrip l) && containsChar '=' (pyStrip l)) = true
    · rw [List.find?_cons_of_pos
        (p := fun s => pyStartsWith key (pyStrip s) && containsChar '=' (pyStrip s)) _ h]
      show (if pyStartsWith key (pyStrip l) && containsChar '=' (pyStrip l)
          then some (valueAfterEq (pyStrip l)) else scanDirective key ls) = _
      rw [if_pos h]
      rfl
    · rw [List.find?_cons_of_neg
        (p := fun s => pyStartsWith key (pyStrip s) && containsChar '=' (pyStrip s)) _ h]
      show (if pyStartsWith key (pyStrip l) && containsChar '=' (pyStrip l)
          then some (valueAfterEq (pyStrip l)) else scanDirective key ls) = _
      rw [if_neg h]
      exact ih

/-! ### Filesystem actions and `prepare_calculation` -/

inductive FsAction where
  | copyFile (src dest : String)
  | copyTree (src dest : String)
  | mkdir (path : String)
deriving DecidableEq

/-- Environment for `prepare_calculation`: whether each filesystem copy
succeeds, and the content of the `.inp` file (`none` when reading it
raises — an error the opname helper catches, falling back to `None`). -/
structure PrepEnv where
  copyInpOk : Bool
  inpContent : Option String
  copyOpOk : Bool
  copyDbOk : Bool

/-- Target file name for the operator file: `f"{opname}.op"` when the
scanned opname is truthy (non-`None` and nonempty), else the fallback
`operator.op`. -/
def opTargetName (opname : Option String) : String :=
  match opname with
  | some nm => if nm.data ≠ [] then nm ++ ".op" else "operator.op"
  | none => "operator.op"

/-- `prepare_calculation`: copy the `.inp` file to `input.inp`, scan the
original `.inp` for `opname`, copy the operator file under the derived
name, and for DD-vMCG with a db folder copy the tree to `db_data`.  The
returned flag is the boolean result; the list is the filesystem requests
issued, in order.  Unset paths make the corresponding `shutil` call raise
`TypeError`, caught by the surrounding `except` — hence `false`. -/
def prepare_calculation (c : QuanticsCalculation) (env : PrepEnv) :
    Bool × List FsAction :=
  match c.working_directory, c.inp_file with
  | some wd, some inp =>
    if env.copyInpOk then
      let act1 := FsAction.copyFile (pathStr inp) (pathStr (pathChild wd "input.inp"))
      let opname := env.inpContent.bind (fun txt => getOpnameFromInp (pyLines txt))
      let opFilename := opTargetName opname
      match c.op_file with
      | some op =>
        if env.copyOpOk then
          let act2 := FsAction.copyFile (pathStr op) (pathStr (pathChild wd opFilename))
          if c.workflow_type = "DD-vMCG" then
            match c.db_folder with
            | some db =>
              if env.copyDbOk then
                (true, [act1, act2,
                  FsAction.copyTree (pathStr db) (pathStr (pathChild wd "db_data"))])
              else (false, [act1, act2])
            | none => (true, [act1, act2])
          else (true, [act1, act2])
        else (false, [act1])
      | none => (false, [act1])
    else (false, [])
  | _, _ => (false, [])

/-- C3 counterexample: the text `"opname2 = bar"` contains no line of the
form `opname = <value>` (its key strips to `opname2`), so the claim
demands the fallback `operator.op`; the code's prefix-based matcher
nevertheless fires on it and copies the operator file as `bar.op`. -/
theorem C3_counterexample :
    strictDirective "opname" (pyLines "opname2 = bar") = none
      ∧ (prepare_calculation
          { name := "c1", inp_file := some ⟨true, ["in", "a.inp"]⟩,
            op_file := some ⟨true, ["in", "a.op"]⟩,
            working_directory := some ⟨true, ["wd"]⟩ }
          { copyInpOk := true, inpContent := some "opname2 = bar",
            copyOpOk := true, copyDbOk := true }).snd
        = [FsAction.copyFile "/in/a.inp" "/wd/input.inp",
           FsAction.copyFile "/in/a.op" "/wd/bar.op"]
      ∧ "bar.op" ≠ "operator.op" := by
  decide

/-- C3 (amended): whenever the working directory and both input paths are
set, the input copy and operator copy succeed, and the `.inp` file is
readable with content `txt`, `prepare_calculation` copies the input file
to `input.inp` and the operator file to `<v>.op`, where `v` is the
stripped segment between the first and second `=` of the FIRST line of
`txt` whose stripped form STARTS WITH `opname` and contains `=` — falling
back to `operator.op` when no such line exists or `v` is empty. -/
theorem C3_amended (c : QuanticsCalculation) (env : PrepEnv)
    (wd inp op : PyPath) (txt : String)
    (hwd : c.working_directory = some wd) (hinp : c.inp_file = some inp)
    (hop : c.op_file = some op)
    (h1 : env.copyInpOk = true) (h2 : env.copyOpOk = true)
    (hc : env.inpContent = some txt) :
    ∃ rest, (prepare_calculation c env).snd
      = FsAction.copyFile (pathStr inp) (pathStr (pathChild wd "input.inp"))
        :: FsAction.copyFile (pathStr op)
             (pathStr (pathChild wd (opTargetName (firstDirective "opname" (pyLines txt)))))
        :: rest := by
  unfold prepare_calculation
  rw [hwd, hinp, hop, h1, h2, hc]
  simp only [getOpnameFromInp, scanDirective_eq_firstDirective, Option.some_bind, if_true]
  by_cases hw : c.workflow_type = "DD-vMCG"
  · rw [if_pos hw]
    cases hdb : c.db_folder with
    | none => exact ⟨[], rfl⟩
    | some db =>
      cases hdbok : env.copyDbOk with
      | true => exact ⟨[FsAction.copyTree (pathStr db) (pathStr (pathChild wd "db_data"))], rfl⟩
      | false => exact ⟨[], rfl⟩
  · rw [if_neg hw]
    exact ⟨[], rfl⟩

/-- Witness for C3 (amended) at a concrete calculation whose `.inp` text
carries `opname = ho_op`. -/
theorem C3_amended_witness :
    ∃ rest, (prepare_calculation
        { name := "c2", inp_file := some ⟨true, ["in", "b.inp"]⟩,
          op_file := some ⟨true, ["in", "b.op"]⟩,
          working_directory := some ⟨true, ["wd2"]⟩ }
        { copyInpOk := true, inpContent := some "run-section\nopname = ho_op\nend",
          copyOpOk := true, copyDbOk := true }).snd
      = FsAction.copyFile "/in/b.inp" "/wd2/input.inp"
        :: FsAction.copyFile "/in/b.op"
             (pathStr (pathChild ⟨true, ["wd2"]⟩ (opTargetName
               (firstDirective "opname" (pyLines "run-section\nopname = ho_op\nend")))))
        :: rest :=
  C3_amended _ _ ⟨true, ["wd2"]⟩ ⟨true, ["in", "b.inp"]⟩ ⟨true, ["in", "b.op"]⟩
    "run-section\nopname = ho_op\nend" rfl rfl rfl rfl rfl rfl

/-! ### Output discovery (`_check_output_files`) -/

/-- Environment for output discovery: the content of the copied
`input.inp` (`none` when reading raises — caught inside the name helper),
and the filesystem's answers about directory/file existence. -/
structure CheckEnv where
  inpContent : Option String
  dirExists : String → Bool
  fileExists : String → Bool

/-- Resolution of the output directory name: the scanned `name` directive
when truthy, else the Calculation's own `name`. -/
def resolvedOutputName (name : String) (inpContent : Option String) : String :=
  match inpContent.bind (fun txt => getOutputNameFromInp (pyLines txt)) with
  | some v => if v.data ≠ [] then v else name
  | none => name

/-- The `results`-updating body of `_check_output_files` once the working
directory is known: record `output_directory`, `output_name` and the found
well-known output files when the resolved directory exists; otherwise
leave `results` alone (only a warning is printed). -/
def discoverOutputs (name : String) (results : List (String × ConfigVal))
    (wd : PyPath) (env : CheckEnv) : List (String × ConfigVal) :=
  let outputName := resolvedOutputName name env.inpContent
  let outputDir := pathStr (pathChild wd outputName)
  if env.dirExists outputDir then
    let r1 := dictInsert results "output_directory" (ConfigVal.str outputDir)
    let r2 := dictInsert r1 "output_name" (ConfigVal.str outputName)
    let found := (["log", "output", "auto", "psi"]).filter
      (fun f => env.fileExists (outputDir ++ "/" ++ f))
    dictInsert r2 "output_files" (ConfigVal.list (found.map ConfigVal.str))
  else results

/-- `_check_output_files`.  An unset working directory would raise in
Python; that cannot happen on the call path from `run_calculation`
(preparation fails first), so the record is returned unchanged there. -/
def check_output_files (c : QuanticsCalculation) (env : CheckEnv) :
    QuanticsCalculation :=
  match c.working_directory with
  | none => c
  | some wd => { c with results := discoverOutputs c.name c.results wd env }

theorem check_output_files_preserves (c : QuanticsCalculation) (env : CheckEnv) :
    (check_output_files c env).status = c.status
      ∧ (check_output_files c env).start_time = c.start_time
      ∧ (check_output_files c env).end_time = c.end_time := by
  unfold check_output_files
  cases c.working_directory
  · exact ⟨rfl, rfl, rfl⟩
  · exact ⟨rfl, rfl, rfl⟩

/-- The claim-side resolution: the value of the first line of the form
described by the specification, written with `firstDirective`. -/
def namedOutput (name txt : String) : String :=
  match firstDirective "name" (pyLines txt) with
  | some v => if v.data ≠ [] then v else name
  | none => name

theorem resolvedOutputName_some (name txt : String) :
    resolvedOutputName name (some txt) = namedOutput name txt := by
  unfold resolvedOutputName namedOutput
  rw [show (some txt).bind (fun t => getOutputNameFromInp (pyLines t))
      = getOutputNameFromInp (pyLines txt) from rfl]
  rw [getOutputNameFromInp, scanDirective_eq_firstDirective]

/-- C4 counterexample: the copied `input.inp` text `"namespace = zz"`
contains no line of the form `name = <value>` (its key strips to
`namespace`), so the claim demands the fallback to the Calculation's own
name, `calcname`; the prefix-based scanner nevertheless fires and
discovery records `/wd/zz` as the output directory. -/
theorem C4_counterexample :
    strictDirective "name" (pyLines "namespace = zz") = none
      ∧ dictLookup (check_output_files
          { name := "calcname", working_directory := some ⟨true, ["wd"]⟩ }
          { inpContent := some "namespace = zz",
            dirExists := fun s => s == "/wd/zz",
            fileExists := fun _ => false }).results "output_directory"
        = some (ConfigVal.str "/wd/zz")
      ∧ ("/wd/zz" : String) ≠ "/wd/calcname" :=
  ⟨by decide, rfl, by decide⟩

/-- C4 (amended): for every completed calculation with working directory
`wd` whose copied `input.inp` is readable with content `txt`, when the
resolved output directory exists, discovery records
`output_directory = str(wd / v)` and `output_name = v` — regardless of the
Calculation's own `name` — where `v` is the stripped segment between the
first and second `=` of the FIRST line of `txt` whose stripped form STARTS
WITH `name` and contains `=`; when no such line exists (or its value is
empty) `v` falls back to the Calculation's own `name`. -/
theorem C4_amended (c : QuanticsCalculation) (env : CheckEnv) (wd : PyPath)
    (txt : String)
    (hwd : c.working_directory = some wd) (hc : env.inpContent = some txt)
    (hex : env.dirExists (pathStr (pathChild wd (namedOutput c.name txt))) = true) :
    dictLookup (check_output_files c env).results "output_directory"
        = some (ConfigVal.str (pathStr (pathChild wd (namedOutput c.name txt))))
      ∧ dictLookup (check_output_files c env).results "output_name"
        = some (ConfigVal.str (namedOutput c.name txt)) := by
  unfold check_output_files
  rw [hwd]
  show dictLookup (discoverOutputs c.name c.results wd env) "output_directory" = _
    ∧ dictLookup (discoverOutputs c.name c.results wd env) "output_name" = _
  unfold discoverOutputs
  rw [hc, resolvedOutputName_some, if_pos hex]
  constructor
  · rw [dictLookup_insert_ne _ _ (by decide), dictLookup_insert_ne _ _ (by decide),
      dictLookup_insert_self]
  · rw [dictLookup_insert_ne _ _ (by decide), dictLookup_insert_self]

/-- Witness for C4 (amended): the input text carries `name = zzdir`, the
Calculation itself is named `other`, and discovery reports `/wdx/zzdir`. -/
theorem C4_amended_witness :
    dictLookup (check_output_files
        { name := "other", working_directory := some ⟨true, ["wdx"]⟩ }
        { inpContent := some "title\nname = zzdir\nend",
          dirExists := fun s => s == "/wdx/zzdir",
          fileExists := fun _ => false }).results "output_directory"
      = some (ConfigVal.str (pathStr (pathChild ⟨true, ["wdx"]⟩
          (namedOutput "other" "title\nname = zzdir\nend")))) :=
  (C4_amended _ _ ⟨true, ["wdx"]⟩ "title\nname = zzdir\nend" rfl rfl (by decide)).1

/-! ### Running the calculation (`run_calculation`) -/

/-- Environment of one `run_calculation` call: the preparation
environment, the subprocess outcome (`some rc` — the executable ran and
returned exit code `rc`; `none` — spawning raised, e.g. the executable is
missing), the two wall-clock readings taken at start and at end, and the
discovery environment. -/
structure RunEnv where
  prep : PrepEnv
  subprocess : Option Int
  tStart : Nat
  tEnd : Nat
  check : CheckEnv

/-- Result of `run_calculation`: the mutated record, the boolean return,
and the filesystem requests issued. -/
structure RunOutcome where
  calcAfter : QuanticsCalculation
  ok : Bool
  actions : List FsAction

/-- `run_calculation`: reject re-entry while `running`; prepare (abort on
failure, record untouched); transition to `running` with `start_time`;
spawn the executable; on exit 0 transition to `completed` and run output
discovery, on nonzero exit transition to `failed`; always record
`end_time`; a spawn exception transitions to `failed` with `end_time` set
and returns `false`. -/
def run_calculation (c : QuanticsCalculation) (env : RunEnv) : RunOutcome :=
  if c.status = "running" then ⟨c, false, []⟩
  else
    let pr := prepare_calculation c env.prep
    if pr.fst then
      let c1 := { c with status := "running", start_time := some env.tStart }
      match env.subprocess with
      | none => ⟨{ c1 with status := "failed", end_time := some env.tEnd }, false, pr.snd⟩
      | some rc =>
        let c2 := { c1 with end_time := some env.tEnd }
        if rc = 0 then
          let c3 := check_output_files { c2 with status := "completed" } env.check
          ⟨c3, c3.status == "completed", pr.snd⟩
        else ⟨{ c2 with status := "failed" }, false, pr.snd⟩
    else ⟨c, false, pr.snd⟩

/-- C1: whenever preparation succeeds and the external subprocess is
invoked and returns, exit code 0 yields `status = "completed"` and any
nonzero exit code yields `status = "failed"`; in both cases `end_time` is
set to a non-null timestamp not earlier than `start_time` (the two
wall-clock readings are taken in program order, hence the nondecreasing
clock hypothesis). -/
theorem C1_exit_code_semantics (c : QuanticsCalculation) (env : RunEnv) (rc : Int)
    (hrun : c.status ≠ "running")
    (hprep : (prepare_calculation c env.prep).fst = true)
    (hsub : env.subprocess = some rc)
    (hclock : env.tStart ≤ env.tEnd) :
    ((rc = 0 → (run_calculation c env).calcAfter.status = "completed")
      ∧ (rc ≠ 0 → (run_calculation c env).calcAfter.status = "failed"))
      ∧ ∃ ts te, (run_calculation c env).calcAfter.start_time = some ts
          ∧ (run_calculation c env).calcAfter.end_time = some te ∧ ts ≤ te := by
  unfold run_calculation
  rw [if_neg hrun]
  simp only [hprep, if_true, hsub]
  by_cases h0 : rc = 0
  · subst h0
    rw [if_pos rfl]
    refine ⟨⟨fun _ => ?_, fun hne => absurd rfl hne⟩,
      env.tStart, env.tEnd, ?_, ?_, hclock⟩
    · exact (check_output_files_preserves _ env.check).1
    · exact (check_output_files_preserves _ env.check).2.1
    · exact (check_output_files_preserves _ env.check).2.2
  · rw [if_neg h0]
    exact ⟨⟨fun h => absurd h h0, fun _ => rfl⟩,
      env.tStart, env.tEnd, rfl, rfl, hclock⟩

/-- Witness for C1: a fresh calculation whose subprocess exits 0. -/
theorem C1_exit_code_semantics_witness :
    let cw : QuanticsCalculation :=
      { name := "w1", inp_file := some ⟨true, ["w1.inp"]⟩,
        op_file := some ⟨true, ["w1.op"]⟩, working_directory := some ⟨true, ["wd1"]⟩ }
    let envw : RunEnv :=
      { prep := { copyInpOk := true, inpContent := none, copyOpOk := true, copyDbOk := true },
        subprocess := some 0, tStart := 5, tEnd := 9,
        check :=
          { inpContent := none, dirExists := fun _ => false, fileExists := fun _ => false } }
    ((0 = (0 : Int) → (run_calculation cw envw).calcAfter.status = "completed")
      ∧ ((0 : Int) ≠ 0 → (run_calculation cw envw).calcAfter.status = "failed"))
      ∧ ∃ ts te, (run_calculation cw envw).calcAfter.start_time = some ts
          ∧ (run_calculation cw envw).calcAfter.end_time = some te ∧ ts ≤ te :=
  C1_exit_code_semantics _ _ 0 (by decide) (by decide) rfl (by decide)

/-- C6 counterexample: a filesystem copy failure during preparation makes
`run_calculation` return `false` but leaves the calculation's status at
`"created"` — it is NOT marked `"failed"` as the claim asserts for every
environment error. -/
theorem C6_counterexample :
    let cw : QuanticsCalculation :=
      { name := "c6", inp_file := some ⟨true, ["a.inp"]⟩,
        op_file := some ⟨true, ["a.op"]⟩, working_directory := some ⟨true, ["w6"]⟩ }
    let envw : RunEnv :=
      { prep := { copyInpOk := false, inpContent := none, copyOpOk := true, copyDbOk := true },
        subprocess := some 0, tStart := 0, tEnd := 1,
        check :=
          { inpContent := none, dirExists := fun _ => false, fileExists := fun _ => false } }
    (run_calculation cw envw).ok = false
      ∧ (run_calculation cw envw).calcAfter.status = "created"
      ∧ ("created" : String) ≠ "failed" :=
  ⟨rfl, rfl, by decide⟩

/-- C6 (amended): every environment error is caught and converted into a
`false` return from `run_calculation`; a missing executable (spawn
exception) additionally marks the calculation `failed`, while
preparation-stage errors — a filesystem copy failure or a missing DB
folder — leave the record entirely unmodified (status still whatever it
was, typically `"created"`). -/
theorem C6_amended (c : QuanticsCalculation) (env : RunEnv)
    (hrun : c.status ≠ "running") :
    ((prepare_calculation c env.prep).fst = false →
        run_calculation c env = ⟨c, false, (prepare_calculation c env.prep).snd⟩)
      ∧ (env.subprocess = none → (prepare_calculation c env.prep).fst = true →
          (run_calculation c env).ok = false
            ∧ (run_calculation c env).calcAfter.status = "failed") := by
  unfold run_calculation
  rw [if_neg hrun]
  constructor
  · intro hp
    simp [hp]
  · intro hs hp
    simp only [hp, if_true, hs]
    exact ⟨trivial, trivial⟩

/-- Witness for C6 (amended): the operator-file copy fails, the run
returns `false`, and the record is unchanged. -/
theorem C6_amended_witness :
    let cw : QuanticsCalculation :=
      { name := "c6b", inp_file := some ⟨true, ["b.inp"]⟩,
        op_file := some ⟨true, ["b.op"]⟩, working_directory := some ⟨true, ["w6b"]⟩ }
    let envw : RunEnv :=
      { prep := { copyInpOk := true, inpContent := none, copyOpOk := false, copyDbOk := true },
        subprocess := some 0, tStart := 0, tEnd := 1,
        check :=
          { inpContent := none, dirExists := fun _ => false, fileExists := fun _ => false } }
    run_calculation cw envw = ⟨cw, false, [FsAction.copyFile "/b.inp" "/w6b/input.inp"]⟩ :=
  (C6_amended _ _ (by decide)).1 rfl

/-! ### Creating a calculation (`create_calculation`) -/

/-- Environment of `create_calculation`: the formatted creation timestamp
and the effect of `Path(...).resolve()` (absolutization against the
process working directory). -/
structure CreateEnv where
  timestamp : String
  resolve : PyPath → PyPath

/-- `create_calculation` over a registry (the runner's `self.calculations`
dict): raise `ValueError` (the `none` component) on a duplicate name
before any mutation; otherwise build the record, eagerly create the
working directory `runs/<name>_<timestamp>`, insert, and persist.  The
returned triple is (registry after the call, created record or exception,
filesystem requests issued). -/
def create_calculation (reg : List (String × QuanticsCalculation))
    (runsDir : PyPath) (env : CreateEnv) (name : String) (inp op : PyPath)
    (wt : String) (db : Option PyPath) :
    List (String × QuanticsCalculation) × Option QuanticsCalculation × List FsAction :=
  if reg.any (fun e => e.fst == name) then (reg, none, [])
  else
    let wd := pathChild runsDir (name ++ "_" ++ env.timestamp)
    let c : QuanticsCalculation :=
      { name := name
        inp_file := some (env.resolve inp)
        op_file := some (env.resolve op)
        db_folder := if wt = "DD-vMCG" then db.map env.resolve else none
        workflow_type := wt
        working_directory := some wd
        status := "created"
        start_time := none
        end_time := none
        results := [] }
    (reg ++ [(name, c)], some c, [FsAction.mkdir (pathStr wd)])

theorem any_of_dictLookup {α : Type} {d : List (String × α)} {k : String} {v : α}
    (h : dictLookup d k = some v) : d.any (fun e => e.fst == k) = true := by
  unfold dictLookup at h
  induction d with
  | nil => simp [List.find?] at h
  | cons e es ih =>
    rw [List.any_cons]
    cases he : (e.fst == k) with
    | true => simp [he]
    | false =>
      rw [List.find?_cons_of_neg (p := fun q : String × α => q.fst == k) _ (by simp [he])] at h
      simp only [he, Bool.false_or]
      exact ih h

/-- C2: calling `create_calculation` with a name already present in the
registry fails with the duplicate-name `ValueError` (the `none` result),
performs no filesystem action (no working directory is registered), and
returns the registry — hence the first calculation's record — completely
unmodified. -/
theorem C2_duplicate_name (reg : List (String × QuanticsCalculation))
    (runsDir : PyPath) (env : CreateEnv) (name : String) (inp op : PyPath)
    (wt : String) (db : Option PyPath) (c0 : QuanticsCalculation)
    (hdup : dictLookup reg name = some c0) :
    create_calculation reg runsDir env name inp op wt db = (reg, none, []) := by
  unfold create_calculation
  rw [if_pos (any_of_dictLookup hdup)]

/-- Witness for C2 on a one-record registry hit by the same name. -/
theorem C2_duplicate_name_witness :
    create_calculation [("dup", { name := "dup" })] ⟨true, ["runs"]⟩
        { timestamp := "20240101_000000", resolve := id } "dup"
        ⟨true, ["i.inp"]⟩ ⟨true, ["o.op"]⟩ "MCTDH" none
      = ([("dup", { name := "dup" })], none, []) :=
  C2_duplicate_name _ _ _ _ _ _ _ _ { name := "dup" } rfl

/-! ### Analysis orchestration (`run_analysis`) -/

/-- Outcome of invoking one analysis tool: the subprocess ran and
returned (exit code, stdout, stderr), or an exception was raised while
handling it. -/
inductive ToolRun where
  | ran (returncode : Int) (stdout : String) (stderr : String)
  | exc (msg : String)

/-- Environment of a `run_analysis` call. -/
structure AnalysisEnv where
  run : String → ToolRun
  dirExists : String → Bool
  inpContent : Option String

/-- Command construction for one tool name: `rdcheck`-prefixed tools are
split on whitespace, `rdgpop` gets `-w`, `ddtraj` runs bare; any other
name is unknown (`none`) — printed and skipped with `continue`. -/
def toolCommand (tool : String) : Option (List String) :=
  if pyStartsWith "rdcheck" tool then some (pySplitWs tool)
  else if tool = "rdgpop" then some ["rdgpop", "-w"]
  else if tool = "ddtraj" then some ["ddtraj"]
  else none

/-- The per-tool loop of `run_analysis`: unknown tools are skipped; exit 0
records stdout, nonzero records `"Error: " + stderr`, an exception records
`"Exception: " + message`; the batch always continues.  (The side write of
each success to `<tool>_output.txt` is an effect the mapping does not
observe and is not modelled.) -/
def runTools (env : AnalysisEnv) :
    List String → List (String × String) → List (String × String)
  | [], acc => acc
  | tool :: rest, acc =>
    match toolCommand tool with
    | none => runTools env rest acc
    | some _cmd =>
      match env.run tool with
      | .ran rc out err =>
        if rc = 0 then runTools env rest (dictInsert acc tool out)
        else runTools env rest (dictInsert acc tool ("Error: " ++ err))
      | .exc m => runTools env rest (dictInsert acc tool ("Exception: " ++ m))

/-- The output-name resolution chain of `run_analysis`: the cached
`results["output_name"]` when truthy, else re-parse `input.inp`, else the
Calculation's own name. -/
def analysisOutputName (c : QuanticsCalculation) (inpContent : Option String) : String :=
  let cached : Option String :=
    match dictLookup c.results "output_name" with
    | some (ConfigVal.str s) => if s.data ≠ [] then some s else none
    | _ => none
  match cached with
  | some s => s
  | none => resolvedOutputName c.name inpContent

/-- `run_analysis`: no-op (empty mapping) unless `completed`; resolve the
output directory; empty mapping when it does not exist; otherwise run the
tools sequentially, store the mapping under `results["analysis"]` and
return it.  The outer `none` models the `TypeError` that an unset working
directory would raise past the caller. -/
def run_analysis (c : QuanticsCalculation) (tools : List String)
    (env : AnalysisEnv) : Option (QuanticsCalculation × List (String × String)) :=
  if c.status ≠ "completed" then some (c, [])
  else
    match c.working_directory with
    | none => none
    | some wd =>
      let outputName := analysisOutputName c env.inpContent
      let outputDir := pathStr (pathChild wd outputName)
      if env.dirExists outputDir then
        let res := runTools env tools []
        let resVal := ConfigVal.dict (res.map (fun p => (p.fst, ConfigVal.str p.snd)))
        some ({ c with results := dictInsert c.results "analysis" resVal }, res)
      else some (c, [])

/-- The keys the per-tool loop produces, computed on key lists alone:
known tools append their name if not already present. -/
def knownToolKeys : List String → List String → List String
  | [], ks => ks
  | t :: rest, ks =>
    match toolCommand t with
    | none => knownToolKeys rest ks
    | some _ =>
      if ks.any (fun s => s == t) then knownToolKeys rest ks
      else knownToolKeys rest (ks ++ [t])

theorem runTools_keys (env : AnalysisEnv) :
    ∀ (tools : List String) (acc : List (String × String)),
      (runTools env tools acc).map Prod.fst
        = knownToolKeys tools (acc.map Prod.fst) := by
  intro tools
  induction tools with
  | nil => intro acc; rfl
  | cons t rest ih =>
    intro acc
    have hins : ∀ v : String, (dictInsert acc t v).map Prod.fst
        = if (acc.map Prod.fst).any (fun s => s == t) then acc.map Prod.fst
          else acc.map Prod.fst ++ [t] := by
      intro v
      rw [map_fst_dictInsert]
      have hcond : (acc.any (fun e => e.fst == t))
          = ((acc.map Prod.fst).any (fun s => s == t)) := by
        induction acc with
        | nil => rfl
        | cons e es ihh => simp [List.any_cons, ihh]
      rw [hcond]
    cases ht : toolCommand t with
    | none =>
      simp only [runTools, knownToolKeys, ht]
      exact ih acc
    | some cmd =>
      simp only [runTools, knownToolKeys, ht]
      cases henv : env.run t with
      | ran rc out err =>
        dsimp only
        by_cases h0 : rc = 0
        · rw [if_pos h0, ih (dictInsert acc t out), hins out]
          by_cases hc : (acc.map Prod.fst).any (fun s => s == t) = true
          · rw [if_pos hc, if_pos hc]
          · rw [if_neg hc, if_neg hc]
        · rw [if_neg h0, ih (dictInsert acc t ("Error: " ++ err)), hins _]
          by_cases hc : (acc.map Prod.fst).any (fun s => s == t) = true
          · rw [if_pos hc, if_pos hc]
          · rw [if_neg hc, if_neg hc]
      | exc m =>
        dsimp only
        rw [ih (dictInsert acc t ("Exception: " ++ m)), hins _]
        by_cases hc : (acc.map Prod.fst).any (fun s => s == t) = true
        · rw [if_pos hc, if_pos hc]
        · rw [if_neg hc, if_neg hc]

theorem not_mem_knownToolKeys {t : String} (ht : toolCommand t = none) :
    ∀ (tools : List String) (ks : List String), t ∉ ks → t ∉ knownToolKeys tools ks := by
  intro tools
  induction tools with
  | nil => intro ks h; exact h
  | cons u rest ih =>
    intro ks h
    cases hu : toolCommand u with
    | none =>
      simp only [knownToolKeys, hu]
      exact ih ks h
    | some cmd =>
      simp only [knownToolKeys, hu]
      by_cases hc : ks.any (fun s => s == u) = true
      · rw [if_pos hc]
        exact ih ks h
      · rw [if_neg hc]
        apply ih
        intro hmem
        rcases List.mem_append.mp hmem with h1 | h2
        · exact h h1
        · have htu : t = u := by simpa using h2
          rw [htu] at ht
          exact absurd (ht.symm.trans hu) (by simp)

/-- C5: on a completed calculation with an existing output directory, the
tool list `["rdcheck etot", "nonexistent_tool", "rdcheck spop"]` runs with
the unknown tool skipped (a diagnostic only) while the other two still
run; the returned mapping has exactly the keys `rdcheck etot` and
`rdcheck spop`, in order.  In general an unrecognized tool name never
contributes a key to the mapping and never aborts the batch. -/
theorem C5_unknown_tool_skipped (c : QuanticsCalculation) (env : AnalysisEnv)
    (wd : PyPath) (nm : String)
    (hst : c.status = "completed")
    (hwd : c.working_directory = some wd)
    (hnm : dictLookup c.results "output_name" = some (ConfigVal.str nm))
    (hne : nm.data ≠ [])
    (hdir : env.dirExists (pathStr (pathChild wd nm)) = true) :
    (∃ c2, run_analysis c ["rdcheck etot", "nonexistent_tool", "rdcheck spop"] env
        = some (c2, runTools env ["rdcheck etot", "nonexistent_tool", "rdcheck spop"] [])
      ∧ (runTools env ["rdcheck etot", "nonexistent_tool", "rdcheck spop"] []).map Prod.fst
          = ["rdcheck etot", "rdcheck spop"])
    ∧ ∀ (tools : List String) (t : String), toolCommand t = none →
        ∀ c2 res, run_analysis c tools env = some (c2, res) → t ∉ res.map Prod.fst := by
  have hname : analysisOutputName c env.inpContent = nm := by
    unfold analysisOutputName
    rw [hnm]
    dsimp only
    rw [if_pos hne]
  have hmain : ∀ tools : List String,
      ∃ c2, run_analysis c tools env = some (c2, runTools env tools []) := by
    intro tools
    refine ⟨{ c with results := dictInsert c.results "analysis" (ConfigVal.dict ((runTools env tools []).map (fun p => (p.fst, ConfigVal.str p.snd)))) }, ?_⟩
    unfold run_analysis
    rw [if_neg (by simp [hst]), hwd]
    dsimp only
    rw [hname, if_pos hdir]
  constructor
  · obtain ⟨c2, h2⟩ := hmain ["rdcheck etot", "nonexistent_tool", "rdcheck spop"]
    refine ⟨c2, h2, ?_⟩
    rw [runTools_keys]
    decide
  · intro tools t ht c2 res hres
    obtain ⟨c2w, h2⟩ := hmain tools
    have hre : res = runTools env tools [] :=
      congrArg Prod.snd (Option.some.inj (hres.symm.trans h2))
    rw [hre, runTools_keys]
    exact not_mem_knownToolKeys ht tools _ (by simp)

/-- Witness for C5: a completed calculation with cached output name and
every known tool succeeding. -/
theorem C5_unknown_tool_skipped_witness :
    let cw : QuanticsCalculation :=
      { name := "n", status := "completed", working_directory := some ⟨true, ["wdA"]⟩,
        results := [("output_name", ConfigVal.str "nmA")] }
    let envw : AnalysisEnv :=
      { run := fun _ => ToolRun.ran 0 "out" "", dirExists := fun s => s == "/wdA/nmA",
        inpContent := none }
    ∃ c2, run_analysis cw ["rdcheck etot", "nonexistent_tool", "rdcheck spop"] envw
        = some (c2, runTools envw ["rdcheck etot", "nonexistent_tool", "rdcheck spop"] [])
      ∧ (runTools envw ["rdcheck etot", "nonexistent_tool", "rdcheck spop"] []).map Prod.fst
          = ["rdcheck etot", "rdcheck spop"] := by
  intro cw envw
  exact (C5_unknown_tool_skipped cw envw ⟨true, ["wdA"]⟩ "nmA" rfl rfl rfl
    (by decide) rfl).1

/-! ### Parsing the executable's output
(`QuanticsAiidaParser._parse_quantics_output`)

Python floats are modelled exactly: a parsed decimal literal is kept as an
unreduced fraction (integer numerator over positive power-of-ten
denominator), and value equality is decidable cross-multiplication.
Binary rounding is irrelevant to the extraction logic under scrutiny. -/

/-- Exact value of a parsed decimal literal: `num / den`. -/
structure PyFloat where
  num : Int
  den : Nat
deriving DecidableEq

/-- Value equality of two parsed literals (cross multiplication). -/
def PyFloat.valEq (a b : PyFloat) : Prop :=
  a.num * (b.den : Int) = b.num * (a.den : Int)

instance pyFloatValEqDec (a b : PyFloat) : Decidable (PyFloat.valEq a b) :=
  inferInstanceAs (Decidable (a.num * (b.den : Int) = b.num * (a.den : Int)))

def PyFloat.neg (q : PyFloat) : PyFloat :=
  ⟨-q.num, q.den⟩

def allDigitsC (cs : List Char) : Bool :=
  cs.all isDigitC

def digitsVal (cs : List Char) : Nat :=
  cs.foldl (fun a c => a * 10 + charVal c) 0

/-- Powers of ten, by structural recursion so the kernel evaluates them. -/
def npow10 : Nat → Nat
  | 0 => 1
  | n + 1 => 10 * npow10 n

def ipow10 : Nat → Int
  | 0 => 1
  | n + 1 => 10 * ipow10 n

/-- Mantissa of a decimal literal: digits with at most one dot and at
least one digit overall. -/
def parseMantissa? (cs : List Char) : Option PyFloat :=
  match splitOnP (fun c => c = '.') cs with
  | [i] => if i ≠ [] && allDigitsC i then some ⟨(digitsVal i : Int), 1⟩ else none
  | [i, f] =>
    if (i ++ f) ≠ [] && allDigitsC i && allDigitsC f then
      some ⟨(digitsVal (i ++ f) : Int), npow10 f.length⟩
    else none
  | _ => none

/-- Optionally signed decimal exponent. -/
def parseExp? (cs : List Char) : Option Int :=
  match cs with
  | '-' :: r => if r ≠ [] && allDigitsC r then some (-(digitsVal r : Int)) else none
  | '+' :: r => if r ≠ [] && allDigitsC r then some ((digitsVal r : Int)) else none
  | r => if r ≠ [] && allDigitsC r then some ((digitsVal r : Int)) else none

def applyExp (q : PyFloat) (e : Int) : PyFloat :=
  if 0 ≤ e then ⟨q.num * ipow10 e.toNat, q.den⟩
  else ⟨q.num, q.den * npow10 (-e).toNat⟩

/-- Python `float(s)` on the decimal-literal fragment of its grammar
(optional surrounding blanks, optional sign, mantissa with optional dot,
optional `e`/`E` exponent).  `inf`, `nan` and underscore separators are
outside the fragment and never arise in the modelled outputs. -/
def pyFloat? (s : String) : Option PyFloat :=
  let cs := trimChars s.data
  let signed : Bool × List Char :=
    match cs with
    | '-' :: r => (true, r)
    | '+' :: r => (false, r)
    | r => (false, r)
  match splitOnP (fun c => c = 'e' || c = 'E') signed.snd with
  | [m] => (parseMantissa? m).map (fun q => if signed.fst then q.neg else q)
  | [m, e] =>
    match parseMantissa? m, parseExp? e with
    | some q, some ex => some (applyExp (if signed.fst then q.neg else q) ex)
    | _, _ => none
  | _ => none

/-- The structured results the parser extracts. -/
structure ParseResults where
  total_energy : Option PyFloat := none
  final_time : Option PyFloat := none
  converged : Option Bool := none
deriving DecidableEq

/-- Python `line.split()[-1]` — `none` models the `IndexError` on an
all-whitespace line, which the caller's `except` turns into a no-op. -/
def lastToken? (line : String) : Option String :=
  (pySplitWs line).getLast?

/-- `float(line.split()[-1])` with both failure modes collapsed to `none`
(both `IndexError` and `ValueError` are caught and ignored). -/
def lastFloat? (line : String) : Option PyFloat :=
  (lastToken? line).bind pyFloat?

/-- The `"Total energy"` matcher of one loop iteration: overwrite
`total_energy` when the line matches and its last token parses. -/
def stepTE (r : ParseResults) (line : String) : ParseResults :=
  if containsSub "Total energy" line then
    match lastFloat? line with
    | some v => { r with total_energy := some v }
    | none => r
  else r

/-- The `"Final time"` matcher, same shape. -/
def stepFT (r : ParseResults) (line : String) : ParseResults :=
  if containsSub "Final time" line then
    match lastFloat? line with
    | some v => { r with final_time := some v }
    | none => r
  else r

/-- The convergence matcher: `achieved` wins over `failed` on one line
(`if`/`elif`). -/
def stepCV (r : ParseResults) (line : String) : ParseResults :=
  if containsSub "Convergence" line && containsSub "achieved" line then
    { r with converged := some true }
  else if containsSub "Convergence" line && containsSub "failed" line then
    { r with converged := some false }
  else r

/-- One iteration of the parser's loop: the three independent matchers in
source order, each overwriting its own field of the shared dict. -/
def parseStep (r : ParseResults) (line : String) : ParseResults :=
  stepCV (stepFT (stepTE r line) line) line

/-- `_parse_quantics_output` itself. -/
def parseQuanticsOutput (stdout : String) : ParseResults :=
  (pyLines stdout).foldl parseStep {}

/-- Last-match reformulation: the value contributed by the LAST line that
contains `pat` and whose last token parses. -/
def lastValue (pat : String) : List String → Option PyFloat
  | [] => none
  | l :: ls =>
    match lastValue pat ls with
    | some v => some v
    | none => if containsSub pat l then lastFloat? l else none

/-- Last-match reformulation of the convergence flag. -/
def lastConv : List String → Option Bool
  | [] => none
  | l :: ls =>
    match lastConv ls with
    | some b => some b
    | none =>
      if containsSub "Convergence" l && containsSub "achieved" l then some true
      else if containsSub "Convergence" l && containsSub "failed" l then some false
      else none

theorem stepFT_total_energy (r : ParseResults) (l : String) :
    (stepFT r l).total_energy = r.total_energy := by
  unfold stepFT
  split
  · split <;> rfl
  · rfl

theorem stepCV_total_energy (r : ParseResults) (l : String) :
    (stepCV r l).total_energy = r.total_energy := by
  unfold stepCV
  split
  · rfl
  · split <;> rfl

theorem stepTE_final_time (r : ParseResults) (l : String) :
    (stepTE r l).final_time = r.final_time := by
  unfold stepTE
  split
  · split <;> rfl
  · rfl

theorem stepCV_final_time (r : ParseResults) (l : String) :
    (stepCV r l).final_time = r.final_time := by
  unfold stepCV
  split
  · rfl
  · split <;> rfl

theorem stepTE_converged (r : ParseResults) (l : String) :
    (stepTE r l).converged = r.converged := by
  unfold stepTE
  split
  · split <;> rfl
  · rfl

theorem stepFT_converged (r : ParseResults) (l : String) :
    (stepFT r l).converged = r.converged := by
  unfold stepFT
  split
  · split <;> rfl
  · rfl

theorem parseStep_total_energy (r : ParseResults) (l : String) :
    (parseStep r l).total_energy
      = if containsSub "Total energy" l then
          match lastFloat? l with
          | some v => some v
          | none => r.total_energy
        else r.total_energy := by
  unfold parseStep
  rw [stepCV_total_energy, stepFT_total_energy]
  unfold stepTE
  split
  · split <;> rfl
  · rfl

theorem parseStep_final_time (r : ParseResults) (l : String) :
    (parseStep r l).final_time
      = if containsSub "Final time" l then
          match lastFloat? l with
          | some v => some v
          | none => r.final_time
        else r.final_time := by
  unfold parseStep
  rw [stepCV_final_time]
  unfold stepFT
  split
  · split
    · rfl
    · exact stepTE_final_time r l
  · exact stepTE_final_time r l

theorem parseStep_converged (r : ParseResults) (l : String) :
    (parseStep r l).converged
      = if containsSub "Convergence" l && containsSub "achieved" l then some true
        else if containsSub "Convergence" l && containsSub "failed" l then some false
        else r.converged := by
  unfold parseStep
  unfold stepCV
  split
  · rfl
  · split
    · rfl
    · rw [stepFT_converged, stepTE_converged]

theorem foldl_parseStep_fields (lines : List String) :
    ∀ r : ParseResults,
      ((lines.foldl parseStep r).total_energy
          = (match lastValue "Total energy" lines with
             | some v => some v
             | none => r.total_energy))
        ∧ ((lines.foldl parseStep r).final_time
          = (match lastValue "Final time" lines with
             | some v => some v
             | none => r.final_time))
        ∧ ((lines.foldl parseStep r).converged
          = (match lastConv lines with
             | some b => some b
             | none => r.converged)) := by
  induction lines with
  | nil => intro r; exact ⟨rfl, rfl, rfl⟩
  | cons l ls ih =>
    intro r
    obtain ⟨h1, h2, h3⟩ := ih (parseStep r l)
    refine ⟨?_, ?_, ?_⟩
    · rw [List.foldl_cons, h1]
      cases hv : lastValue "Total energy" ls with
      | some v => simp [lastValue, hv]
      | none =>
        simp only [lastValue, hv, parseStep_total_energy]
        cases hc : containsSub "Total energy" l <;> simp
    · rw [List.foldl_cons, h2]
      cases hv : lastValue "Final time" ls with
      | some v => simp [lastValue, hv]
      | none =>
        simp only [lastValue, hv, parseStep_final_time]
        cases hc : containsSub "Final time" l <;> simp
    · rw [List.foldl_cons, h3]
      cases hv : lastConv ls with
      | some b => simp [lastConv, hv]
      | none =>
        simp only [lastConv, hv, parseStep_converged]
        cases hca : (containsSub "Convergence" l && containsSub "achieved" l) <;>
          cases hcf : (containsSub "Convergence" l && containsSub "failed" l) <;> simp

/-- C7 counterexample: on an output with two `Total energy` lines the
parser keeps the LAST parseable match (value 2) — not the value of the
first matching line (value 1), as the claim's "first line containing"
rule prescribes.  The first line parses fine, so the claim and the code
genuinely disagree on the extracted value. -/
theorem C7_counterexample :
    parseQuanticsOutput "Total energy 1.0\nTotal energy 2.0"
        = { total_energy := some ⟨20, 10⟩, final_time := none, converged := none }
      ∧ lastFloat? "Total energy 1.0" = some ⟨10, 10⟩
      ∧ ¬PyFloat.valEq ⟨20, 10⟩ ⟨10, 10⟩ := by
  refine ⟨by decide, by decide, by decide⟩

/-- C7 (amended): the parser extracts `total_energy` from the LAST line
containing `"Total energy"` whose last whitespace-delimited token parses
as a float (unparsable matches are ignored), `final_time` likewise for
`"Final time"`, and `converged` from the last line containing
`"Convergence"` together with `"achieved"` (true, taking precedence) or
`"failed"` (false); each field is absent when no line matches.  On the
specification's own example the result is exactly
`{total_energy: -1.234, final_time: 100.0, converged: true}` (the parsed
fractions are kept unreduced: −1234/1000 and 1000/10). -/
theorem C7_amended :
    (∀ text : String,
      (parseQuanticsOutput text).total_energy = lastValue "Total energy" (pyLines text)
        ∧ (parseQuanticsOutput text).final_time = lastValue "Final time" (pyLines text)
        ∧ (parseQuanticsOutput text).converged = lastConv (pyLines text))
    ∧ parseQuanticsOutput "Total energy -1.234\nFinal time 100.0\nConvergence achieved\n"
        = { total_energy := some ⟨-1234, 1000⟩, final_time := some ⟨1000, 10⟩,
            converged := some true }
    ∧ PyFloat.valEq ⟨1000, 10⟩ ⟨100, 1⟩ := by
  refine ⟨?_, by decide, by decide⟩
  intro text
  obtain ⟨h1, h2, h3⟩ := foldl_parseStep_fields (pyLines text) {}
  refine ⟨?_, ?_, ?_⟩
  · rw [parseQuanticsOutput, h1]
    cases lastValue "Total energy" (pyLines text) <;> rfl
  · rw [parseQuanticsOutput, h2]
    cases lastValue "Final time" (pyLines text) <;> rfl
  · rw [parseQuanticsOutput, h3]
    cases lastConv (pyLines text) <;> rfl

/-! ### Workflow-type → analysis-tool maps -/

/-- `QuanticsMainWindow.workflow_analysis_map` (main_window.py): ordered
(tool, description) pairs per workflow type. -/
def workflow_analysis_map : List (String × List (String × String)) :=
  [("MCTDH",
    [("rdcheck etot", "Total energy check"),
     ("rdcheck spop", "Single particle population"),
     ("rdcheck natpop 0 0", "Natural potential analysis"),
     ("rdgpop", "Grid population analysis")]),
   ("vMCG",
    [("rdcheck etot", "Total energy check"),
     ("rdcheck spop", "Single particle population")]),
   ("DD-vMCG",
    [("rdcheck etot", "Total energy check"),
     ("rdcheck spop", "Single particle population"),
     ("ddtraj", "DD trajectory analysis")])]

/-- The fixed dictionary inside `QuanticsWorkChain._get_analysis_tools`
(aiida_integration.py). -/
def analysis_map : List (String × List String) :=
  [("MCTDH", ["rdcheck etot", "rdcheck spop", "rdcheck natpop 0 0", "rdgpop"]),
   ("vMCG", ["rdcheck etot", "rdcheck spop"]),
   ("DD-vMCG", ["rdcheck etot", "rdcheck spop", "ddtraj"])]

/-- `QuanticsWorkChain._get_analysis_tools`: `analysis_map.get(wt, [])`. -/
def getAnalysisTools (workflow_type : String) : List String :=
  (dictLookup analysis_map workflow_type).getD []

/-- C8: for each of the three workflow types the GUI's fixed map (tool
names, in order, dropping the display descriptions) and the
Workflow-Platform Adapter's fixed map yield the identical ordered tool
list, and those lists are exactly the ones the claim spells out. -/
theorem C8_tool_maps_agree :
    ((dictLookup workflow_analysis_map "MCTDH").getD []).map Prod.fst
        = getAnalysisTools "MCTDH"
      ∧ ((dictLookup workflow_analysis_map "vMCG").getD []).map Prod.fst
        = getAnalysisTools "vMCG"
      ∧ ((dictLookup workflow_analysis_map "DD-vMCG").getD []).map Prod.fst
        = getAnalysisTools "DD-vMCG"
      ∧ getAnalysisTools "MCTDH"
        = ["rdcheck etot", "rdcheck spop", "rdcheck natpop 0 0", "rdgpop"]
      ∧ getAnalysisTools "vMCG" = ["rdcheck etot", "rdcheck spop"]
      ∧ getAnalysisTools "DD-vMCG" = ["rdcheck etot", "rdcheck spop", "ddtraj"] := by
  decide
